import Mathlib

/-!
Verification of the cluster-metadata subsystem of `pkg/util/kubernetes/apiserver/apiserver.go`.

The Go code is shallowly embedded: Go maps become association lists over `String`
keys, remote calls become `Except`-valued parameters supplied by the environment,
and `nil` Go slices/maps are modelled with `Option`.  Each definition mirrors one
Go function of the source file; the theorems settle the specification claims.
-/

/-- Association-list lookup, modelling a Go map read `v, ok := m[k]`. -/
def alookup {α : Type} : List (String × α) → String → Option α
  | [], _ => none
  | (k2, v) :: rest, k => if k2 = k then some v else alookup rest k

/-- Association-list update, modelling a Go map write `m[k] = v` on a non-nil map. -/
def aset {α : Type} : List (String × α) → String → α → List (String × α)
  | [], k, v => [(k, v)]
  | (k2, w) :: rest, k, v => if k2 = k then (k, v) :: rest else (k2, w) :: aset rest k v

theorem alookup_aset_self {α : Type} (l : List (String × α)) (k : String) (v : α) :
    alookup (aset l k v) k = some v := by
  induction l with
  | nil => simp [aset, alookup]
  | cons hd tl ih =>
    obtain ⟨k2, w⟩ := hd
    by_cases h : k2 = k
    · simp [aset, h, alookup]
    · simp [aset, h, alookup, ih]

theorem alookup_aset_ne {α : Type} (l : List (String × α)) (k k2 : String) (v : α)
    (h : k ≠ k2) : alookup (aset l k v) k2 = alookup l k2 := by
  induction l with
  | nil => simp [aset, alookup, h]
  | cons hd tl ih =>
    obtain ⟨k3, w⟩ := hd
    by_cases h3 : k3 = k
    · simp [aset, h3, alookup, h]
    · simp [aset, h3, alookup]
      by_cases h4 : k3 = k2 <;> simp [h4, ih]

/-- Constant `configMapDCAToken` from the source. -/
def configMapDCAToken : String := "datadogtoken"

/-- Constant `tokenTime` from the source: the timestamp field suffix. -/
def tokenTime : String := "tokenTimestamp"

/-- Constant `tokenKey` from the source: the token value field suffix. -/
def tokenKeyField : String := "tokenKey"

/-- A Kubernetes ConfigMap as the token store sees it: `data := none` models a
Go object whose `Data` map is `nil` (reads yield the zero value, writes panic). -/
structure ConfigMap where
  data : Option (List (String × String))
  deriving DecidableEq

/-- Reading `cm.Data[k]` in Go: a read from a `nil` map succeeds with `ok = false`. -/
def cmGet (cm : ConfigMap) (k : String) : Option String :=
  alookup (cm.data.getD []) k

/-- The sentinel errors of the token store, plus the formatted error produced by
`log.Errorf` for an unparsable timestamp. -/
inductive TokenErr
  | errNotFound
  | errOutdated
  | logError (msg : String)
  deriving DecidableEq

/-- `GetTokenFromConfigmap` from the source.  The remote `ConfigMaps(ns).Get` call is
supplied as `getRes`; `time.Parse time.RFC822` is supplied as `parseRFC822`, returning
the parsed time's Unix seconds; `nowUnix` is `time.Now().Unix()`.  The Go return triple
`(string, bool, error)` becomes `String × Bool × Option TokenErr`. -/
def GetTokenFromConfigmap (getRes : Except String ConfigMap)
    (parseRFC822 : String → Option Int) (nowUnix : Int)
    (token : String) (tokenTimeout : Int) : String × Bool × Option TokenErr :=
  match getRes with
  | .error _ => ("", false, some .errNotFound)
  | .ok tokenConfigMap =>
    let eventTokenKey := token ++ "." ++ tokenKeyField
    match cmGet tokenConfigMap eventTokenKey with
    | none => ("", false, some .errNotFound)
    | some tokenValue =>
      let eventTokenTS := token ++ "." ++ tokenTime
      match cmGet tokenConfigMap eventTokenTS with
      | none => (tokenValue, true, some .errOutdated)
      | some tokenTimeStr =>
        match parseRFC822 tokenTimeStr with
        | none =>
          ("", true, some (.logError ("could not convert the timestamp associated with "
            ++ token ++ " from the ConfigMap " ++ configMapDCAToken)))
        | some ts =>
          let tokenAge := nowUnix - ts
          if tokenAge > tokenTimeout then (tokenValue, true, some .errOutdated)
          else (tokenValue, true, none)

/-- C2: if the `<token>.tokenKey` field is present but `<token>.tokenTimestamp` is
absent, `GetTokenFromConfigmap` returns the stored value with `found = true` and
error `ErrOutdated` — never `ErrNotFound`. -/
theorem getToken_missing_timestamp_outdated (cm : ConfigMap)
    (parseRFC822 : String → Option Int) (nowUnix : Int) (token v : String)
    (tokenTimeout : Int)
    (hk : cmGet cm (token ++ "." ++ tokenKeyField) = some v)
    (ht : cmGet cm (token ++ "." ++ tokenTime) = none) :
    GetTokenFromConfigmap (.ok cm) parseRFC822 nowUnix token tokenTimeout =
      (v, true, some .errOutdated) := by
  simp [GetTokenFromConfigmap, hk, ht]

theorem getToken_missing_timestamp_outdated_witness :
    GetTokenFromConfigmap (.ok ⟨some [("t.tokenKey", "secret")]⟩)
      (fun _ => none) 0 "t" 60 = ("secret", true, some .errOutdated) :=
  getToken_missing_timestamp_outdated ⟨some [("t.tokenKey", "secret")]⟩
    (fun _ => none) 0 "t" "secret" 60 (by decide) (by decide)

/-- C3: with both fields present and a well-formed timestamp, the result is the
stored value with `found = true`, and the error is `ErrOutdated` exactly when the
age `now − timestamp` strictly exceeds `tokenTimeout`, `nil` otherwise (an age
equal to the timeout is fresh). -/
theorem getToken_staleness_boundary (cm : ConfigMap)
    (parseRFC822 : String → Option Int) (nowUnix : Int) (token v tsStr : String)
    (ts tokenTimeout : Int)
    (hk : cmGet cm (token ++ "." ++ tokenKeyField) = some v)
    (ht : cmGet cm (token ++ "." ++ tokenTime) = some tsStr)
    (hp : parseRFC822 tsStr = some ts) :
    GetTokenFromConfigmap (.ok cm) parseRFC822 nowUnix token tokenTimeout =
      (v, true, if nowUnix - ts > tokenTimeout then some .errOutdated else none) := by
  simp only [GetTokenFromConfigmap, hk, ht, hp]
  by_cases h : nowUnix - ts > tokenTimeout <;> simp [h]

theorem getToken_staleness_boundary_witness :
    GetTokenFromConfigmap
      (.ok ⟨some [("t.tokenKey", "secret"), ("t.tokenTimestamp", "01 Jan 70 00:00 UTC")]⟩)
      (fun _ => some 0) 100 "t" 60 =
      ("secret", true, if (100 : Int) - 0 > 60 then some .errOutdated else none) :=
  getToken_staleness_boundary
    ⟨some [("t.tokenKey", "secret"), ("t.tokenTimestamp", "01 Jan 70 00:00 UTC")]⟩
    (fun _ => some 0) 100 "t" "secret" "01 Jan 70 00:00 UTC" 0 60
    (by decide) (by decide) rfl

/-- C10: every failure of the remote ConfigMap `Get` — whatever its message — is
mapped to `("", false, ErrNotFound)`, so a missing object and a failed remote call
are indistinguishable to the caller. -/
theorem getToken_get_failure_notfound (e : String)
    (parseRFC822 : String → Option Int) (nowUnix : Int) (token : String)
    (tokenTimeout : Int) :
    GetTokenFromConfigmap (.error e) parseRFC822 nowUnix token tokenTimeout =
      ("", false, some .errNotFound) := by
  simp [GetTokenFromConfigmap]

/-- Outcome of one `connect` attempt: the returned error (if any) and how many
times the Authorization Probe `checkResourcesAuth` was invoked. -/
structure ConnectOutcome where
  err : Option String
  authProbeRuns : Nat
  deriving DecidableEq

/-- `connect` from the source.  `clientBuilt` models `c.client != nil` on entry,
`buildRes` the `GetClient()` call, `versionEmpty` the value of
`APIversion.Empty()`, `authRes` the result of `checkResourcesAuth` (run lazily),
and `useMetadataMapper` the config flag read at the end.  The source tests
`if !APIversion.Empty()` and returns nil there (after logging that the version
could not be retrieved and that it is retrying), and runs the probe otherwise. -/
def connect (clientBuilt : Bool) (buildRes : Except String Unit)
    (versionEmpty : Bool) (authRes : Option String)
    (useMetadataMapper : Bool) : ConnectOutcome :=
  match clientBuilt, buildRes with
  | false, .error e => ⟨some e, 0⟩
  | _, _ =>
    if !versionEmpty then ⟨none, 0⟩
    else
      match authRes with
      | some e => ⟨some e, 1⟩
      | none =>
        if !useMetadataMapper then ⟨none, 1⟩
        else ⟨none, 1⟩

/-- C1: the version test in `connect` is inverted.  With the client built and a
NON-empty version response the attempt returns the retry outcome `nil` WITHOUT
running the Authorization Probe, and with an EMPTY version response it runs the
probe — the opposite of the claim (and of the function's own log messages, which
announce "Cannot retrieve the version ... retrying" in the branch taken when the
version is non-empty). -/
theorem connect_version_branch_inverted :
    connect true (.ok ()) false none true = ⟨none, 0⟩ ∧
    connect true (.ok ()) true none true = ⟨none, 1⟩ :=
  ⟨rfl, rfl⟩

/-- Go `strconv.Quote` escaping of one character, as used by the `%q` verb for the
common (printable ASCII) alphabet of error messages. -/
def goQuoteChar (c : Char) : String :=
  if c = '"' then "\\\""
  else if c = '\\' then "\\\\"
  else if c = '\n' then "\\n"
  else if c = '\t' then "\\t"
  else if c = '\r' then "\\r"
  else String.singleton c

/-- Go `fmt.Sprintf("%q", s)` on an error message. -/
def goQuote (s : String) : String :=
  "\"" ++ String.join (s.toList.map goQuoteChar) ++ "\""

/-- Go `strings.Join(msgs, ", ")`. -/
def joinComma : List String → String
  | [] => ""
  | [m] => m
  | m :: rest => m ++ ", " ++ joinComma rest

/-- `aggregateCheckResourcesErrors` from the source. -/
def aggregateCheckResourcesErrors (errorMessages : List String) : Option String :=
  if errorMessages.isEmpty then none
  else some ("check resources failed: " ++ joinComma errorMessages)

/-- `checkResourcesAuth` from the source.  Each probe's List call is supplied as
`Option String` (`some e` = the call failed with message `e`).  When the
metadata-mapper flag is off only the Events probe contributes; otherwise the
Services, Pods and Nodes probes run as well, each appending its own message. -/
def checkResourcesAuth (useMetadataMapper : Bool)
    (eventsErr servicesErr podsErr nodesErr : Option String) : Option String :=
  let errorMessages : List String := []
  let errorMessages := match eventsErr with
    | some e => errorMessages ++ ["event collection: " ++ goQuote e]
    | none => errorMessages
  if useMetadataMapper = false then
    aggregateCheckResourcesErrors errorMessages
  else
    let errorMessages := match servicesErr with
      | some e => errorMessages ++ ["service collection: " ++ goQuote e]
      | none => errorMessages
    let errorMessages := match podsErr with
      | some e => errorMessages ++ ["pod collection: " ++ goQuote e]
      | none => errorMessages
    let errorMessages := match nodesErr with
      | some e => errorMessages ++ ["node collection: " ++ goQuote e]
      | none => errorMessages
    aggregateCheckResourcesErrors errorMessages

/-- The messages of exactly the probes that the configuration enables and that
failed, in probe order — stated from the spec's words, for comparison with
`checkResourcesAuth`. -/
def specEnabledFailedMessages (useMetadataMapper : Bool)
    (eventsErr servicesErr podsErr nodesErr : Option String) : List String :=
  (match eventsErr with
   | some e => ["event collection: " ++ goQuote e]
   | none => []) ++
  (if useMetadataMapper then
    (match servicesErr with
     | some e => ["service collection: " ++ goQuote e]
     | none => []) ++
    (match podsErr with
     | some e => ["pod collection: " ++ goQuote e]
     | none => []) ++
    (match nodesErr with
     | some e => ["node collection: " ++ goQuote e]
     | none => [])
   else [])

/-- C5: `checkResourcesAuth` runs every enabled probe without short-circuiting:
it returns `nil` exactly when no executed probe failed, and otherwise one
aggregate error joining, comma-separated, the message of every failed executed
probe and of no other probe. -/
theorem checkResourcesAuth_aggregates_all_failures (useMetadataMapper : Bool)
    (eventsErr servicesErr podsErr nodesErr : Option String) :
    checkResourcesAuth useMetadataMapper eventsErr servicesErr podsErr nodesErr =
      (match specEnabledFailedMessages useMetadataMapper eventsErr servicesErr podsErr nodesErr with
       | [] => none
       | msgs => some ("check resources failed: " ++ joinComma msgs)) ∧
    (checkResourcesAuth useMetadataMapper eventsErr servicesErr podsErr nodesErr = none ↔
      specEnabledFailedMessages useMetadataMapper eventsErr servicesErr podsErr nodesErr = []) := by
  cases useMetadataMapper <;> cases eventsErr <;> cases servicesErr <;> cases podsErr <;>
    cases nodesErr <;>
    simp [checkResourcesAuth, specEnabledFailedMessages, aggregateCheckResourcesErrors, joinComma]

/-- How a call to `UpdateTokenInConfigmap` ends: normal return of `nil`, normal
return of a Go error, or a Go runtime panic (assignment to an entry in a nil map). -/
inductive UpdateOutcome
  | ok
  | goError (msg : String)
  | panicked (msg : String)
  deriving DecidableEq

/-- Observable behaviour of one `UpdateTokenInConfigmap` call: its outcome, how many
remote `Get` and `Update` calls it issued, and the ConfigMap passed to `Update`. -/
structure UpdateTrace where
  outcome : UpdateOutcome
  getCalls : Nat
  updateCalls : Nat
  sentUpdate : Option ConfigMap
  deriving DecidableEq

/-- Go `cm.Data[k] = v`: assigning into a `nil` map panics, otherwise the map is
updated in place. -/
def mapAssign (cm : ConfigMap) (k v : String) : Option ConfigMap :=
  match cm.data with
  | none => none
  | some d => some ⟨some (aset d k v)⟩

/-- `UpdateTokenInConfigmap` from the source.  The remote `Get` is supplied as
`getRes`, the remote `Update` as `updateRes` (a function of the object sent), and
`now.Format(time.RFC822)` as `nowRFC822`.  The two field assignments go through
`mapAssign`, which models the nil-map panic of the Go runtime. -/
def UpdateTokenInConfigmap (getRes : Except String ConfigMap)
    (updateRes : ConfigMap → Except String Unit)
    (nowRFC822 : String) (token tokenValue : String) : UpdateTrace :=
  match getRes with
  | .error e => ⟨.goError e, 1, 0, none⟩
  | .ok tokenConfigMap =>
    let eventTokenKey := token ++ "." ++ tokenKeyField
    match mapAssign tokenConfigMap eventTokenKey tokenValue with
    | none => ⟨.panicked "assignment to entry in nil map", 1, 0, none⟩
    | some cm1 =>
      let eventTokenTS := token ++ "." ++ tokenTime
      match mapAssign cm1 eventTokenTS nowRFC822 with
      | none => ⟨.panicked "assignment to entry in nil map", 1, 0, none⟩
      | some cm2 =>
        match updateRes cm2 with
        | .error e => ⟨.goError e, 1, 1, some cm2⟩
        | .ok _ => ⟨.ok, 1, 1, some cm2⟩

theorem tokenFieldNames_ne (token : String) :
    token ++ "." ++ tokenKeyField ≠ token ++ "." ++ tokenTime := by
  intro h
  have hlen := congrArg String.length h
  simp only [String.length_append] at hlen
  have h1 : tokenKeyField.length = 8 := rfl
  have h2 : tokenTime.length = 14 := rfl
  omega

/-- C4: a successful `UpdateTokenInConfigmap` sends exactly one remote `Update`,
whose object carries both `<token>.tokenKey = value` and `<token>.tokenTimestamp =
now (RFC 822)`; a failed `Get` is returned verbatim with no `Update` issued; a
failed `Update` is returned verbatim; and no call issues more than one `Get` or
more than one `Update` (no retry inside the call). -/
theorem updateToken_single_update_both_fields (getRes : Except String ConfigMap)
    (updateRes : ConfigMap → Except String Unit) (nowRFC822 token tokenValue : String) :
    (UpdateTokenInConfigmap getRes updateRes nowRFC822 token tokenValue).getCalls = 1 ∧
    (UpdateTokenInConfigmap getRes updateRes nowRFC822 token tokenValue).updateCalls ≤ 1 ∧
    ((UpdateTokenInConfigmap getRes updateRes nowRFC822 token tokenValue).outcome = .ok →
      (UpdateTokenInConfigmap getRes updateRes nowRFC822 token tokenValue).updateCalls = 1 ∧
      ∃ cm, (UpdateTokenInConfigmap getRes updateRes nowRFC822 token tokenValue).sentUpdate
              = some cm ∧
        cmGet cm (token ++ "." ++ tokenKeyField) = some tokenValue ∧
        cmGet cm (token ++ "." ++ tokenTime) = some nowRFC822) ∧
    (∀ e, getRes = .error e →
      UpdateTokenInConfigmap getRes updateRes nowRFC822 token tokenValue =
        ⟨.goError e, 1, 0, none⟩) ∧
    (∀ cm e, (UpdateTokenInConfigmap getRes updateRes nowRFC822 token tokenValue).sentUpdate
        = some cm → updateRes cm = .error e →
      (UpdateTokenInConfigmap getRes updateRes nowRFC822 token tokenValue).outcome
        = .goError e) := by
  match getRes with
  | .error e => simp [UpdateTokenInConfigmap]
  | .ok tokenConfigMap =>
    match hd : tokenConfigMap.data with
    | none =>
      simp [UpdateTokenInConfigmap, mapAssign, hd]
    | some d =>
      have hne := tokenFieldNames_ne token
      match hu : updateRes ⟨some (aset (aset d (token ++ "." ++ tokenKeyField) tokenValue)
          (token ++ "." ++ tokenTime) nowRFC822)⟩ with
      | .error e =>
        simp only [UpdateTokenInConfigmap, mapAssign, hd, hu]
        refine ⟨by trivial, by simp, by simp, by simp, ?_⟩
        intro cm e2 hcm hu2
        simp only [Option.some.injEq] at hcm
        subst hcm
        rw [hu] at hu2
        simp only [Except.error.injEq] at hu2
        simp [hu2]
      | .ok _ =>
        simp only [UpdateTokenInConfigmap, mapAssign, hd, hu]
        refine ⟨by trivial, by simp, ?_, by simp, ?_⟩
        · intro _
          refine ⟨by trivial, _, rfl, ?_, ?_⟩
          · rw [cmGet]
            simp only [Option.getD_some]
            rw [alookup_aset_ne _ _ _ _ hne.symm, alookup_aset_self]
          · rw [cmGet]
            simp only [Option.getD_some]
            rw [alookup_aset_self]
        · intro cm e2 hcm hu2
          simp only [Option.some.injEq] at hcm
          subst hcm
          rw [hu] at hu2
          exact absurd hu2 (by simp)

theorem updateToken_single_update_both_fields_witness :
    ∃ cm, (UpdateTokenInConfigmap (.ok ⟨some []⟩) (fun _ => .ok ())
            "01 Jan 70 00:00 UTC" "t" "v").sentUpdate = some cm ∧
      cmGet cm ("t" ++ "." ++ tokenKeyField) = some "v" ∧
      cmGet cm ("t" ++ "." ++ tokenTime) = some "01 Jan 70 00:00 UTC" :=
  ((updateToken_single_update_both_fields (.ok ⟨some []⟩) (fun _ => .ok ())
    "01 Jan 70 00:00 UTC" "t" "v").2.2.1 (by decide)).2

/-- C9: `UpdateTokenInConfigmap` assigns into the fetched ConfigMap's `Data` map
with no nil check: whenever the fetched object's `Data` map is nil, the call ends
in a runtime panic on the first field assignment — not in an error return — and no
remote `Update` is issued. -/
theorem updateToken_nil_data_panics (cm : ConfigMap)
    (updateRes : ConfigMap → Except String Unit) (nowRFC822 token tokenValue : String)
    (h : cm.data = none) :
    UpdateTokenInConfigmap (.ok cm) updateRes nowRFC822 token tokenValue =
      ⟨.panicked "assignment to entry in nil map", 1, 0, none⟩ := by
  simp [UpdateTokenInConfigmap, mapAssign, h]

theorem updateToken_nil_data_panics_witness :
    UpdateTokenInConfigmap (.ok ⟨none⟩) (fun _ => .ok ()) "01 Jan 70 00:00 UTC" "t" "v" =
      ⟨.panicked "assignment to entry in nil map", 1, 0, none⟩ :=
  updateToken_nil_data_panics ⟨none⟩ (fun _ => .ok ()) "01 Jan 70 00:00 UTC" "t" "v" rfl

/-- A cluster node, as `processKubeServices` and the CLI helpers see it: its name
and whether `GetObjectMeta()` is non-nil. -/
structure Node where
  name : String
  hasMeta : Bool
  deriving DecidableEq

/-- A pod; only passed through to the join step. -/
structure Pod where
  name : String
  nodeName : String
  deriving DecidableEq

/-- An endpoints object; only passed through to the join step. -/
structure Endpoints where
  name : String
  deriving DecidableEq

/-- `MetadataMapperBundle` from the source: pod name to owning service names. -/
structure MetadataMapperBundle where
  podNameToService : List (String × List String)
  deriving DecidableEq

/-- `newMetadataMapperBundle` from the source. -/
def newMetadataMapperBundle : MetadataMapperBundle := ⟨[]⟩

/-- The agent's in-process metadata cache, keyed by strings (TTLs play no role in
the claims settled here). -/
def MetaCache : Type := List (String × MetadataMapperBundle)

/-- Constant `metadataMapperCachePrefix` from the source (renamed here only to keep
the identifier plain). -/
def metadataMapperCachePfx : String := "KubernetesMetadataMapping"

/-- Modelled from the spec: `cache.BuildAgentKey` lives outside the shown sources;
spec section 3 gives the cache key as the fixed cache-key root joined to the node
name (`"KubernetesMetadataMapping:" + nodeName`). -/
def buildAgentKey (root nodeName : String) : String := root ++ ":" ++ nodeName

theorem buildAgentKey_inj (root a b : String) (h : buildAgentKey root a = buildAgentKey root b) :
    a = b := by
  have hd : (root ++ ":" ++ a).data = (root ++ ":" ++ b).data := congrArg String.data h
  simp only [String.data_append] at hd
  have := List.append_cancel_left hd
  exact String.ext this

/-- The join step `mapServices` (defined in `services.go`, outside this file) is
abstracted as a function of the node name, the bundle it starts from, and the pod
and endpoints lists, producing the refreshed bundle or an error. -/
def MapServicesFn : Type :=
  String → MetadataMapperBundle → List Pod → List Endpoints →
    Except String MetadataMapperBundle

/-- The loop body of `processKubeServices` for one node: look the node's bundle up
in the cache (a fresh empty bundle when absent), run the join, and on success store
the refreshed bundle back; on failure log and continue, leaving the cache alone. -/
def processNode (mapSvc : MapServicesFn) (podItems : List Pod)
    (endpointItems : List Endpoints) (c : MetaCache) (node : Node) : MetaCache :=
  let nodeNameCacheKey := buildAgentKey metadataMapperCachePfx node.name
  let metaBundle := (alookup c nodeNameCacheKey).getD newMetadataMapperBundle
  match mapSvc node.name metaBundle podItems endpointItems with
  | .error _ => c
  | .ok b => aset c nodeNameCacheKey b

/-- `processKubeServices` from the source: returns immediately when any of the three
item lists is nil, otherwise folds `processNode` over the node list. -/
def processKubeServices (mapSvc : MapServicesFn) (nodeItems : Option (List Node))
    (podItems : Option (List Pod)) (endpointItems : Option (List Endpoints))
    (c : MetaCache) : MetaCache :=
  match nodeItems, podItems, endpointItems with
  | some ns, some ps, some es => ns.foldl (processNode mapSvc ps es) c
  | _, _, _ => c

/-- The three remote list calls of one `ClusterMetadataMapping` cycle. -/
inductive ListCall
  | nodes
  | endpoints
  | pods
  deriving DecidableEq

/-- `ClusterMetadataMapping` from the source.  Each remote list call is supplied as
an `Except` whose payload is the (possibly nil) `Items` slice.  The result records
the returned error, the sequence of remote list calls actually issued, and the
cache after the cycle. -/
def ClusterMetadataMapping (nodesRes : Except String (Option (List Node)))
    (endpointsRes : Except String (Option (List Endpoints)))
    (podsRes : Except String (Option (List Pod)))
    (mapSvc : MapServicesFn) (c : MetaCache) :
    Option String × List ListCall × MetaCache :=
  match nodesRes with
  | .error e => (some e, [.nodes], c)
  | .ok nodeItems =>
    match nodeItems with
    | none => (none, [.nodes], c)
    | some nodeL =>
      match endpointsRes with
      | .error e => (some e, [.nodes, .endpoints], c)
      | .ok endpointItems =>
        match endpointItems with
        | none => (none, [.nodes, .endpoints], c)
        | some epL =>
          match podsRes with
          | .error e => (some e, [.nodes, .endpoints, .pods], c)
          | .ok podItems =>
            match podItems with
            | none => (none, [.nodes, .endpoints, .pods], c)
            | some podL =>
              (none, [.nodes, .endpoints, .pods],
                processKubeServices mapSvc (some nodeL) (some podL) (some epL) c)

/-- C6: within one `ClusterMetadataMapping` cycle the remote list calls are issued
in the fixed order nodes, endpoints, pods (the trace is always a prefix of that
sequence); a failed list call returns its error with the cache untouched; and a nil
item list returns `nil` with the cache untouched. -/
theorem clusterMetadataMapping_order_and_abort
    (nodesRes : Except String (Option (List Node)))
    (endpointsRes : Except String (Option (List Endpoints)))
    (podsRes : Except String (Option (List Pod)))
    (mapSvc : MapServicesFn) (c : MetaCache) :
    ((ClusterMetadataMapping nodesRes endpointsRes podsRes mapSvc c).2.1 ∈
      [[ListCall.nodes], [ListCall.nodes, ListCall.endpoints],
       [ListCall.nodes, ListCall.endpoints, ListCall.pods]]) ∧
    (∀ e, nodesRes = .error e →
      ClusterMetadataMapping nodesRes endpointsRes podsRes mapSvc c =
        (some e, [ListCall.nodes], c)) ∧
    (nodesRes = .ok none →
      ClusterMetadataMapping nodesRes endpointsRes podsRes mapSvc c =
        (none, [ListCall.nodes], c)) ∧
    (∀ nl e, nodesRes = .ok (some nl) → endpointsRes = .error e →
      ClusterMetadataMapping nodesRes endpointsRes podsRes mapSvc c =
        (some e, [ListCall.nodes, ListCall.endpoints], c)) ∧
    (∀ nl, nodesRes = .ok (some nl) → endpointsRes = .ok none →
      ClusterMetadataMapping nodesRes endpointsRes podsRes mapSvc c =
        (none, [ListCall.nodes, ListCall.endpoints], c)) ∧
    (∀ nl el e, nodesRes = .ok (some nl) → endpointsRes = .ok (some el) →
      podsRes = .error e →
      ClusterMetadataMapping nodesRes endpointsRes podsRes mapSvc c =
        (some e, [ListCall.nodes, ListCall.endpoints, ListCall.pods], c)) ∧
    (∀ nl el, nodesRes = .ok (some nl) → endpointsRes = .ok (some el) →
      podsRes = .ok none →
      ClusterMetadataMapping nodesRes endpointsRes podsRes mapSvc c =
        (none, [ListCall.nodes, ListCall.endpoints, ListCall.pods], c)) := by
  rcases nodesRes with e | nodeItems
  · simp [ClusterMetadataMapping]
  rcases nodeItems with _ | nodeL
  · simp [ClusterMetadataMapping]
  rcases endpointsRes with e | endpointItems
  · simp [ClusterMetadataMapping]
  rcases endpointItems with _ | epL
  · simp [ClusterMetadataMapping]
  rcases podsRes with e | podItems
  · simp [ClusterMetadataMapping]
  rcases podItems with _ | podL
  · simp [ClusterMetadataMapping]
  · simp [ClusterMetadataMapping]

theorem clusterMetadataMapping_order_and_abort_witness :
    ClusterMetadataMapping (Except.error "boom")
      (.ok (some [])) (.ok (some [])) (fun _ b _ _ => .ok b) [] =
      (some "boom", [ListCall.nodes], []) :=
  (clusterMetadataMapping_order_and_abort (Except.error "boom")
    (.ok (some [])) (.ok (some [])) (fun _ b _ _ => .ok b) []).2.1 "boom" rfl

theorem processNode_frame (mapSvc : MapServicesFn) (podItems : List Pod)
    (endpointItems : List Endpoints) (c : MetaCache) (node : Node) (k : String)
    (h : k ≠ buildAgentKey metadataMapperCachePfx node.name) :
    alookup (processNode mapSvc podItems endpointItems c node) k = alookup c k := by
  rw [processNode]
  match mapSvc node.name
      ((alookup c (buildAgentKey metadataMapperCachePfx node.name)).getD newMetadataMapperBundle)
      podItems endpointItems with
  | .error _ => rfl
  | .ok b => exact alookup_aset_ne _ _ _ _ h.symm

theorem processNode_self (mapSvc : MapServicesFn) (podItems : List Pod)
    (endpointItems : List Endpoints) (c : MetaCache) (node : Node) :
    alookup (processNode mapSvc podItems endpointItems c node)
        (buildAgentKey metadataMapperCachePfx node.name) =
      (match mapSvc node.name
          ((alookup c (buildAgentKey metadataMapperCachePfx node.name)).getD
            newMetadataMapperBundle) podItems endpointItems with
       | .ok b => some b
       | .error _ => alookup c (buildAgentKey metadataMapperCachePfx node.name)) := by
  rw [processNode]
  match mapSvc node.name
      ((alookup c (buildAgentKey metadataMapperCachePfx node.name)).getD newMetadataMapperBundle)
      podItems endpointItems with
  | .error _ => rfl
  | .ok b => exact alookup_aset_self _ _ _

theorem foldl_processNode_frame (mapSvc : MapServicesFn) (podItems : List Pod)
    (endpointItems : List Endpoints) (nodes : List Node) (c : MetaCache) (nm : String)
    (h : nm ∉ nodes.map Node.name) :
    alookup (nodes.foldl (processNode mapSvc podItems endpointItems) c)
        (buildAgentKey metadataMapperCachePfx nm) =
      alookup c (buildAgentKey metadataMapperCachePfx nm) := by
  induction nodes generalizing c with
  | nil => rfl
  | cons node rest ih =>
    simp only [List.map_cons, List.mem_cons, not_or] at h
    rw [List.foldl_cons, ih _ h.2,
      processNode_frame _ _ _ _ _ _ (fun hk => h.1 (buildAgentKey_inj _ _ _ hk))]

/-- C7: for every node of a duplicate-free node list processed by
`processKubeServices`, the node's cache entry after the cycle is the join's result
when the join succeeds, and is the node's previous entry (untouched, possibly
absent) when the join fails; the bundle handed to the join is the cached one, or a
freshly created empty bundle when no entry exists.  Other nodes' outcomes never
affect it. -/
theorem processKubeServices_partial_failure_isolation (mapSvc : MapServicesFn)
    (podItems : List Pod) (endpointItems : List Endpoints) (nodes : List Node)
    (c : MetaCache) (hnd : (nodes.map Node.name).Nodup) (n : Node) (hn : n ∈ nodes) :
    alookup (processKubeServices mapSvc (some nodes) (some podItems) (some endpointItems) c)
        (buildAgentKey metadataMapperCachePfx n.name) =
      (match mapSvc n.name
          ((alookup c (buildAgentKey metadataMapperCachePfx n.name)).getD
            newMetadataMapperBundle) podItems endpointItems with
       | .ok b => some b
       | .error _ => alookup c (buildAgentKey metadataMapperCachePfx n.name)) := by
  rw [processKubeServices]
  induction nodes generalizing c with
  | nil => cases hn
  | cons node rest ih =>
    simp only [List.map_cons, List.nodup_cons] at hnd
    rw [List.foldl_cons]
    rcases List.mem_cons.mp hn with heq | hmem
    · subst heq
      rw [foldl_processNode_frame _ _ _ _ _ _ hnd.1, processNode_self]
    · have hname : n.name ≠ node.name := by
        intro h
        exact hnd.1 (h ▸ List.mem_map_of_mem Node.name hmem)
      have hkey : buildAgentKey metadataMapperCachePfx n.name ≠
          buildAgentKey metadataMapperCachePfx node.name := fun h =>
        hname (buildAgentKey_inj _ _ _ h)
      rw [ih _ hnd.2 hmem, processNode_frame _ _ _ _ _ _ hkey]

theorem processKubeServices_partial_failure_isolation_witness :
    alookup
      (processKubeServices
        (fun nm _ _ _ => if nm = "B" then .error "join failed" else .ok ⟨[(nm, ["svc"])]⟩)
        (some [⟨"A", true⟩, ⟨"B", true⟩, ⟨"C", true⟩]) (some []) (some [])
        [(buildAgentKey metadataMapperCachePfx "B", ⟨[("oldpod", ["oldsvc"])]⟩)])
      (buildAgentKey metadataMapperCachePfx "B") =
      some ⟨[("oldpod", ["oldsvc"])]⟩ :=
  (processKubeServices_partial_failure_isolation
    (fun nm _ _ _ => if nm = "B" then .error "join failed" else .ok ⟨[(nm, ["svc"])]⟩)
    [] [] [⟨"A", true⟩, ⟨"B", true⟩, ⟨"C", true⟩]
    [(buildAgentKey metadataMapperCachePfx "B", ⟨[("oldpod", ["oldsvc"])]⟩)]
    (by decide) ⟨"B", true⟩ (by decide)).trans (by decide)

/-- The `stats` map returned by `GetMetadataMapBundleOnAllNodes`: its possible
entries `"Errors"`, `"Nodes"` and `"Warnings"` (absent keys are `none`).  A node
whose bundle lookup failed is recorded under `"Nodes"` with a `none` bundle, since
the Go code assigns the (nil) result into the map in both cases. -/
structure AllNodesStats where
  errorsEntry : Option String
  nodesEntry : Option (List (String × Option MetadataMapperBundle))
  warningsEntry : Option (List String)
  deriving DecidableEq

/-- `getMetadataMapBundle` from the source: look the node's bundle up in the cache,
an absent key being an error. -/
def getMetadataMapBundle (c : MetaCache) (nodeName : String) :
    Except String MetadataMapperBundle :=
  let nodeNameCacheKey := buildAgentKey metadataMapperCachePfx nodeName
  match alookup c nodeNameCacheKey with
  | none => .error ("the key " ++ nodeNameCacheKey ++ " was not found in the cache")
  | some metaBundle => .ok metaBundle

/-- The loop body of `GetMetadataMapBundleOnAllNodes` for one node, threading the
`nodePodMetadataMap` and `warnlist` accumulators: a node without object metadata is
skipped; otherwise its bundle (or `none`) is assigned into the map, and a lookup
failure appends one warning. -/
def allNodesStep (c : MetaCache)
    (acc : List (String × Option MetadataMapperBundle) × List String) (node : Node) :
    List (String × Option MetadataMapperBundle) × List String :=
  if node.hasMeta = false then acc
  else
    match getMetadataMapBundle c node.name with
    | .ok b => (aset acc.1 node.name (some b), acc.2)
    | .error msg =>
      (aset acc.1 node.name none,
       acc.2 ++ ["Node " ++ node.name ++ " could not be added to the service map bundle: "
         ++ msg])

/-- `GetMetadataMapBundleOnAllNodes` from the source.  The node-list fetch
(`getNodeList`) is supplied as `nodesRes`; the second component of the result is
the function's Go error return. -/
def GetMetadataMapBundleOnAllNodes (nodesRes : Except String (List Node))
    (c : MetaCache) : AllNodesStats × Option String :=
  match nodesRes with
  | .error e =>
    (⟨some ("Failed to get nodes from the API server: " ++ e), none, none⟩, some e)
  | .ok nodes =>
    let res := nodes.foldl (allNodesStep c) ([], [])
    (⟨none, some res.1, some res.2⟩, none)

theorem foldl_allNodesStep_fst_frame (c : MetaCache) (nodes : List Node)
    (acc : List (String × Option MetadataMapperBundle) × List String) (nm : String)
    (h : nm ∉ nodes.map Node.name) :
    alookup (nodes.foldl (allNodesStep c) acc).1 nm = alookup acc.1 nm := by
  induction nodes generalizing acc with
  | nil => rfl
  | cons node rest ih =>
    simp only [List.map_cons, List.mem_cons, not_or] at h
    rw [List.foldl_cons, ih _ h.2]
    rw [allNodesStep]
    rcases hm : node.hasMeta with _ | _
    · simp
    · simp only [Bool.true_eq_false, if_false]
      match getMetadataMapBundle c node.name with
      | .ok b => exact alookup_aset_ne _ _ _ _ (fun he => h.1 he.symm)
      | .error msg => exact alookup_aset_ne _ _ _ _ (fun he => h.1 he.symm)

theorem foldl_allNodesStep_snd_mono (c : MetaCache) (nodes : List Node)
    (acc : List (String × Option MetadataMapperBundle) × List String) (w : String)
    (h : w ∈ acc.2) : w ∈ (nodes.foldl (allNodesStep c) acc).2 := by
  induction nodes generalizing acc with
  | nil => exact h
  | cons node rest ih =>
    rw [List.foldl_cons]
    refine ih _ ?_
    rw [allNodesStep]
    rcases node.hasMeta with _ | _
    · simpa using h
    · simp only [Bool.true_eq_false, if_false]
      match getMetadataMapBundle c node.name with
      | .ok b => exact h
      | .error msg => exact List.mem_append_left _ h

/-- C8: when the node-list fetch succeeds, `GetMetadataMapBundleOnAllNodes` returns
a nil error regardless of bundle-lookup failures; for each listed node (with object
metadata, names duplicate-free) a successful bundle lookup lands under `"Nodes"`,
while a failed lookup contributes its warning string under `"Warnings"`. -/
theorem getMetadataMapBundleOnAllNodes_warnings (nodesRes : Except String (List Node))
    (c : MetaCache) (nodes : List Node) (hok : nodesRes = .ok nodes)
    (hnd : (nodes.map Node.name).Nodup) (n : Node) (hn : n ∈ nodes)
    (hmeta : n.hasMeta = true) :
    (GetMetadataMapBundleOnAllNodes nodesRes c).2 = none ∧
    (match getMetadataMapBundle c n.name with
     | .ok b =>
       ∃ l, (GetMetadataMapBundleOnAllNodes nodesRes c).1.nodesEntry = some l ∧
         alookup l n.name = some (some b)
     | .error msg =>
       ∃ ws, (GetMetadataMapBundleOnAllNodes nodesRes c).1.warningsEntry = some ws ∧
         ("Node " ++ n.name ++ " could not be added to the service map bundle: " ++ msg)
           ∈ ws) := by
  subst hok
  refine ⟨rfl, ?_⟩
  rw [GetMetadataMapBundleOnAllNodes]
  suffices hsuf : ∀ acc : List (String × Option MetadataMapperBundle) × List String,
      (match getMetadataMapBundle c n.name with
       | .ok b => alookup (nodes.foldl (allNodesStep c) acc).1 n.name = some (some b)
       | .error msg =>
         ("Node " ++ n.name ++ " could not be added to the service map bundle: " ++ msg)
           ∈ (nodes.foldl (allNodesStep c) acc).2) by
    have h := hsuf ([], [])
    match hb : getMetadataMapBundle c n.name with
    | .ok b => rw [hb] at h; exact ⟨_, rfl, h⟩
    | .error msg => rw [hb] at h; exact ⟨_, rfl, h⟩
  intro acc
  induction nodes generalizing acc with
  | nil => cases hn
  | cons node rest ih =>
    simp only [List.map_cons, List.nodup_cons] at hnd
    rcases List.mem_cons.mp hn with heq | hmem
    · subst heq
      rw [List.foldl_cons]
      match hb : getMetadataMapBundle c n.name with
      | .ok b =>
        rw [foldl_allNodesStep_fst_frame _ _ _ _ hnd.1, allNodesStep, hmeta]
        simp only [Bool.true_eq_false, if_false]
        rw [hb]
        exact alookup_aset_self _ _ _
      | .error msg =>
        refine foldl_allNodesStep_snd_mono _ _ _ _ ?_
        rw [allNodesStep, hmeta]
        simp only [Bool.true_eq_false, if_false]
        rw [hb]
        exact List.mem_append_right _ (by simp)
    · rw [List.foldl_cons]
      exact ih hnd.2 hmem _

theorem getMetadataMapBundleOnAllNodes_warnings_witness :
    (GetMetadataMapBundleOnAllNodes (.ok [⟨"A", true⟩, ⟨"B", true⟩])
        [(buildAgentKey metadataMapperCachePfx "A", ⟨[("p", ["s"])]⟩)]).2 = none ∧
    (match getMetadataMapBundle
        [(buildAgentKey metadataMapperCachePfx "A", ⟨[("p", ["s"])]⟩)] "B" with
     | .ok b =>
       ∃ l, (GetMetadataMapBundleOnAllNodes (.ok [⟨"A", true⟩, ⟨"B", true⟩])
          [(buildAgentKey metadataMapperCachePfx "A", ⟨[("p", ["s"])]⟩)]).1.nodesEntry
            = some l ∧ alookup l "B" = some (some b)
     | .error msg =>
       ∃ ws, (GetMetadataMapBundleOnAllNodes (.ok [⟨"A", true⟩, ⟨"B", true⟩])
          [(buildAgentKey metadataMapperCachePfx "A", ⟨[("p", ["s"])]⟩)]).1.warningsEntry
            = some ws ∧
         ("Node " ++ "B" ++ " could not be added to the service map bundle: " ++ msg)
           ∈ ws) :=
  getMetadataMapBundleOnAllNodes_warnings (.ok [⟨"A", true⟩, ⟨"B", true⟩])
    [(buildAgentKey metadataMapperCachePfx "A", ⟨[("p", ["s"])]⟩)]
    [⟨"A", true⟩, ⟨"B", true⟩] rfl (by decide) ⟨"B", true⟩ (by decide) rfl
